import Mathlib

/-!
A shallow embedding of the consulate command line client
(consulate/cli.py) together with proofs about its behaviour.

Conventions of the embedding:
* Output streams are modelled as lists of lines: every write performed
  by the source emits exactly one newline-terminated line, and the
  trailing newline is left implicit here.
* Network interaction with the remote Consul store is modelled by
  explicit response parameters: a handler that performs one HTTP call
  receives the result of that call as an argument of an Except type,
  where an error value models a requests ConnectionError.
* A call to sys.exit with code n is modelled by the outcome
  RunOutcome.exited n; an uncaught Python exception is modelled by
  RunOutcome.raised with the message of the exception.
-/

namespace ConsulateCli

/-- JSON values, covering the fragment produced and consumed by the
backup and restore commands (objects do not occur in that fragment). -/
inductive Json where
  | null : Json
  | bool (b : Bool) : Json
  | num (n : Int) : Json
  | str (s : String) : Json
  | arr (elems : List Json) : Json

/-- Escape of one character inside a JSON string literal. -/
def jsonEscapeChar (c : Char) : String :=
  if c = '"' then "\\\""
  else if c = '\\' then "\\\\"
  else if c = '\n' then "\\n"
  else if c = '\r' then "\\r"
  else if c = '\t' then "\\t"
  else String.singleton c

/-- Escape of the contents of a JSON string literal. -/
def jsonEscape (s : String) : String :=
  String.join (s.toList.map jsonEscapeChar)

mutual
/-- Serialisation of a JSON value in the style of json.dumps with its
default separators. -/
def Json.dumps : Json → String
  | .null => "null"
  | .bool b => if b then "true" else "false"
  | .num n => toString n
  | .str s => "\"" ++ jsonEscape s ++ "\""
  | .arr elems => "[" ++ Json.dumpsList elems ++ "]"

/-- Serialisation of the elements of a JSON array, separated by a
comma and a space. -/
def Json.dumpsList : List Json → String
  | [] => ""
  | [j] => Json.dumps j
  | j :: rest => Json.dumps j ++ ", " ++ Json.dumpsList rest
end

/-- A key/value record as enumerated by the store client: a path, its
flags and its value. -/
structure Record where
  path : String
  flags : Json
  value : Json

/-- The remote key/value store, modelled as an association list from
paths to pairs of flags and value. -/
abbrev Store := List (String × Json × Json)

/-- Lookup of the record stored at a path. -/
def Store.find : Store → String → Option (Json × Json)
  | [], _ => none
  | (p, fv) :: rest, k => if p = k then some fv else Store.find rest k

/-- Modelled from the spec: the store client operation set_record used
by kv_restore belongs to this repository but is not under src. The
spec describes the remote write as set-by-key with optional
only-if-absent semantics: with replace false an existing key is left
untouched; otherwise the flags and value at the path are replaced, or
a fresh record is appended. -/
def set_record (st : Store) (p : String) (f v : Json) (replace : Bool) : Store :=
  if !replace && (Store.find st p).isSome then st
  else
    match Store.find st p with
    | some _ => st.map (fun e => if e.1 = p then (p, f, v) else e)
    | none => st ++ [(p, f, v)]

/-- Extraction of one restore row, modelling the indexing of row at
positions 0, 1 and 2 performed by kv_restore on each element of the
parsed JSON array. An error models the uncaught Python exception
raised when a row cannot be indexed that way; the path is additionally
required to be a string so that it can key the store model. -/
def decodeRecord : Json → Except String Record
  | .arr (Json.str p :: f :: v :: _) => .ok ⟨p, f, v⟩
  | .arr (_ :: _ :: _ :: _) => .error "row path is not a string"
  | _ => .error "row is not indexable at positions 0, 1 and 2"

/-- Row-wise extraction of a whole restore payload; a helper used to
phrase hypotheses about well-formed restore inputs. -/
def decodeRows : List Json → Except String (List Record)
  | [] => .ok []
  | j :: rest =>
    match decodeRecord j with
    | .error e => .error e
    | .ok r =>
      match decodeRows rest with
      | .error e => .error e
      | .ok rs => .ok (r :: rs)

/-- Outcome of running a handler: normal completion, a sys.exit call,
or an uncaught exception. -/
inductive RunOutcome where
  | ok : RunOutcome
  | exited (code : Nat) : RunOutcome
  | raised (msg : String) : RunOutcome
deriving DecidableEq, Repr

/-- The single fixed error line written by connection_error. -/
def connErrMsg : String := "ERROR: Could not connect to consul"

/-- One set_record request issued by kv_restore: path, flags, value
and the replace-if-exists boolean. -/
structure WriteReq where
  path : String
  flags : Json
  value : Json
  replace : Bool

/-- The set_record request kv_restore builds from one decoded row. -/
def mkReq (noReplace : Bool) (r : Record) : WriteReq :=
  ⟨r.path, r.flags, r.value, !noReplace⟩

/-- Result of running kv_restore: the set_record calls issued, the
final store, the error lines written and the run outcome. -/
structure RestoreResult where
  writes : List WriteReq
  store : Store
  stderr : List String
  outcome : RunOutcome

/-- The row loop of kv_restore. Each row is indexed, then one
set_record call is issued with replace equal to the negation of the
no-replace flag; a ConnectionError on that call runs connection_error,
which prints the fixed message and exits with status 1, ending the
process. The argument connOk tells whether the i-th set_record call
reaches the store. -/
def restoreLoop (connOk : Nat → Bool) (noReplace : Bool) :
    List Json → Nat → Store → List WriteReq → RestoreResult
  | [], _, st, ws => ⟨ws, st, [], .ok⟩
  | j :: rest, i, st, ws =>
    match decodeRecord j with
    | .error e => ⟨ws, st, [], .raised e⟩
    | .ok r =>
      if connOk i then
        restoreLoop connOk noReplace rest (i + 1)
          (set_record st r.path r.flags r.value (!noReplace))
          (ws ++ [mkReq noReplace r])
      else ⟨ws ++ [mkReq noReplace r], st, [connErrMsg], .exited 1⟩

/-- The kv restore handler. The whole input is parsed by json.load
before the loop starts, so a parse failure propagates as an uncaught
exception with no write issued; a parsed input that is not an array
likewise raises before any write. -/
def kv_restore (input : Except String Json) (noReplace : Bool)
    (connOk : Nat → Bool) (st : Store) : RestoreResult :=
  match input with
  | .error e => ⟨[], st, [], .raised e⟩
  | .ok (Json.arr rows) => restoreLoop connOk noReplace rows 0 st []
  | .ok _ => ⟨[], st, [], .raised "restore data is not a JSON array"⟩

/-- Folding a list of records into the store through set_record with a
fixed replace flag; the effect of a completed restore loop. -/
def applyRows (replace : Bool) (rows : List Record) (st : Store) : Store :=
  rows.foldl (fun s r => set_record s r.path r.flags r.value replace) st

/-- The JSON row that serialising one record produces. -/
def recordJson (r : Record) : Json := .arr [.str r.path, r.flags, r.value]

/-- The JSON value kv_backup serialises: the array of all records as
enumerated by the store client. -/
def backupJson (rs : List Record) : Json := .arr (rs.map recordJson)

/-- The records held by a store, in store order. -/
def storeRecords (st : Store) : List Record :=
  st.map (fun e => ⟨e.1, e.2.1, e.2.2⟩)

/-- One call a handler makes against the remote store client. -/
inductive StoreCall where
  | records : StoreCall
  | keys : StoreCall
  | getItem (key : String) : StoreCall
  | get (key : String) : StoreCall
  | set (path : String) (value : Option String) : StoreCall
  | setItem (key : String) (value : String) : StoreCall
  | delItem (key : String) : StoreCall
  | delete (key : String) (recurse : Bool) : StoreCall
  | registerService (name : String) (serviceId address port : Option String)
      (tags : Option (List String)) (check interval ttl : Option String) : StoreCall
deriving DecidableEq, Repr

/-- Result of running a handler other than restore: the store calls it
issued, the lines written to standard output and to standard error,
and the run outcome. -/
structure ProcResult where
  calls : List StoreCall
  stdout : List String
  stderr : List String
  outcome : RunOutcome
deriving DecidableEq, Repr

/-- The kv backup handler: one records enumeration call, whose result
is serialised to one JSON line; a ConnectionError runs
connection_error. -/
def kv_backup (recordsResp : Except Unit (List Record)) : ProcResult :=
  match recordsResp with
  | .ok rs => ⟨[.records], [Json.dumps (backupJson rs)], [], .ok⟩
  | .error _ => ⟨[.records], [], [connErrMsg], .exited 1⟩

/-- The kv delete handler mapped from the name del: one item deletion
call. -/
def kv_delete (key : String) (resp : Except Unit Unit) : ProcResult :=
  match resp with
  | .ok _ => ⟨[.delItem key], [], [], .ok⟩
  | .error _ => ⟨[.delItem key], [], [connErrMsg], .exited 1⟩

/-- String interpolation of an optional value in the style of the
percent-s format: an absent value prints as None. -/
def pyStrOpt : Option String → String
  | some s => s
  | none => "None"

/-- The kv get handler: one get call, whose result is printed as one
line. -/
def kv_get (key : String) (resp : Except Unit (Option String)) : ProcResult :=
  match resp with
  | .ok v => ⟨[.get key], [pyStrOpt v], [], .ok⟩
  | .error _ => ⟨[.get key], [], [connErrMsg], .exited 1⟩

/-- Right-justification of a string in a field of the given width,
padding with spaces on the left, as the format specification does. -/
def pyRJust (width : Nat) (s : String) : String :=
  String.mk (List.replicate (width - s.length) ' ') ++ s

/-- The key loop of kv_ls: one line per key; with the long flag the
value of the key is fetched and the line is its length right-justified
in a field of width fourteen, a space, and the key. -/
def lsLoop (valueResp : String → Except Unit String) (long : Bool) :
    List String → List StoreCall → List String → ProcResult
  | [], calls, out => ⟨calls, out, [], .ok⟩
  | k :: rest, calls, out =>
    if long then
      match valueResp k with
      | .ok v =>
          lsLoop valueResp long rest (calls ++ [.getItem k])
            (out ++ [pyRJust 14 (toString v.length) ++ " " ++ k])
      | .error _ => ⟨calls ++ [.getItem k], out, [connErrMsg], .exited 1⟩
    else lsLoop valueResp long rest calls (out ++ [k])

/-- The kv ls handler: one keys enumeration call followed by the key
loop. -/
def kv_ls (keysResp : Except Unit (List String))
    (valueResp : String → Except Unit String) (long : Bool) : ProcResult :=
  match keysResp with
  | .ok ks => lsLoop valueResp long ks [.keys] []
  | .error _ => ⟨[.keys], [], [connErrMsg], .exited 1⟩

/-- The path normalisation performed by kv_mkdir: the slash is
appended unless the path with its final character removed equals a
single slash, mirroring the slice comparison in the source. -/
def mkdirPath (path : String) : String :=
  if !(path.dropRight 1 = "/") then path ++ "/" else path

/-- The kv mkdir handler: one set call storing an absent value at the
normalised path. -/
def kv_mkdir (path : String) (resp : Except Unit Unit) : ProcResult :=
  match resp with
  | .ok _ => ⟨[.set (mkdirPath path) none], [], [], .ok⟩
  | .error _ => ⟨[.set (mkdirPath path) none], [], [connErrMsg], .exited 1⟩

/-- The kv rm handler: one delete call carrying the recurse flag. -/
def kv_rm (key : String) (recurse : Bool) (resp : Except Unit Unit) : ProcResult :=
  match resp with
  | .ok _ => ⟨[.delete key recurse], [], [], .ok⟩
  | .error _ => ⟨[.delete key recurse], [], [connErrMsg], .exited 1⟩

/-- The kv set handler: one item assignment call. -/
def kv_set (key value : String) (resp : Except Unit Unit) : ProcResult :=
  match resp with
  | .ok _ => ⟨[.setItem key value], [], [], .ok⟩
  | .error _ => ⟨[.setItem key value], [], [connErrMsg], .exited 1⟩

/-- The check variant selected for a register command by the
subcommand chosen at parse time, with the arguments that subcommand
carries. -/
inductive CType where
  | check (interval : Int) (path : String) : CType
  | noCheck : CType
  | ttl (duration : Int) : CType

/-- The parsed arguments of a register command. -/
structure RegisterArgs where
  name : String
  address : Option String := none
  port : Option String := none
  service_id : Option String := none
  tags : String := ""
  ctype : CType

/-- The register handler: the script path and the interval are sent
only for a script check, the ttl only for a duration check, each time
span formatted as its number followed by the letter s; the comma
separated tags are split, an empty tags value standing for the falsy
default. One registration call is issued. -/
def register (a : RegisterArgs) (resp : Except Unit Unit) : ProcResult :=
  let check := match a.ctype with
    | .check _ p => some p
    | _ => none
  let interval := match a.ctype with
    | .check i _ => some (toString i ++ "s")
    | _ => none
  let ttl := match a.ctype with
    | .ttl d => some (toString d ++ "s")
    | _ => none
  let tags := if a.tags ≠ "" then some (a.tags.splitOn ",") else none
  let call := StoreCall.registerService a.name a.service_id a.address a.port
    tags check interval ttl
  match resp with
  | .ok _ => ⟨[call], [], [], .ok⟩
  | .error _ => ⟨[call], [], [connErrMsg], .exited 1⟩

/-- The three check related fields of the registration call a handler
result carries, when it consists of exactly one such call. -/
def ProcResult.checkFields : ProcResult → Option (Option String × Option String × Option String)
  | ⟨[.registerService _ _ _ _ _ c i t], _, _, _⟩ => some (c, i, t)
  | _ => none

/-- The names of the handler functions the dispatch table can map a kv
action name to. -/
inductive HandlerName where
  | kv_backup | kv_delete | kv_get | kv_ls | kv_mkdir | kv_restore | kv_rm | kv_set
deriving DecidableEq, Repr

/-- The dispatch table mapping kv action names to handlers. -/
def KV_ACTIONS : List (String × HandlerName) := [
  ("backup", .kv_backup),
  ("del", .kv_delete),
  ("get", .kv_get),
  ("ls", .kv_ls),
  ("mkdir", .kv_mkdir),
  ("restore", .kv_restore),
  ("rm", .kv_rm),
  ("set", .kv_set)]

/-- One add_argument call: the option strings or the positional name,
and the explicit destination when one is given. -/
structure ArgSpec where
  flags : List String
  dest : Option String := none

/-- Replacement of dashes by underscores, as the parsing framework
applies to option names when deriving attribute names. -/
def dashToUnderscore (s : String) : String :=
  String.mk (s.toList.map (fun c => if c = '-' then '_' else c))

/-- Whether a flag string is a long option, one starting with two
dashes. -/
def isLongOpt (f : String) : Bool :=
  match f.toList with
  | '-' :: '-' :: _ => true
  | _ => false

/-- Whether a flag string is an option at all, one starting with a
dash. -/
def isOpt (f : String) : Bool :=
  match f.toList with
  | '-' :: _ => true
  | _ => false

/-- The attribute name an argument binds in the parsed namespace: the
explicit destination when given, else the first long option with its
leading dashes stripped and inner dashes replaced, else the first
option or positional name. -/
def destOf (a : ArgSpec) : String :=
  match a.dest with
  | some d => d
  | none =>
    match a.flags.find? isLongOpt with
    | some long => dashToUnderscore (String.mk (long.toList.drop 2))
    | none =>
      match a.flags with
      | [] => ""
      | f :: _ =>
        if isOpt f then dashToUnderscore (String.mk (f.toList.drop 1))
        else dashToUnderscore f

/-- The kv subcommand table: each action name with the arguments its
subcommand defines. -/
def KV_PARSERS : List (String × List ArgSpec) := [
  ("backup", [⟨["-f", "--file"], none⟩]),
  ("restore", [⟨["-f", "--file"], none⟩, ⟨["-n", "--no-replace"], none⟩]),
  ("ls", [⟨["-l", "--long"], none⟩]),
  ("mkdir", [⟨["path"], none⟩]),
  ("get", [⟨["key"], none⟩]),
  ("set", [⟨["key"], none⟩, ⟨["value"], none⟩]),
  ("rm", [⟨["key"], none⟩, ⟨["-r", "--recurse"], none⟩])]

/-- The top level arguments added by parse_cli_args. -/
def topLevelArgs : List ArgSpec := [
  ⟨["--api-scheme"], none⟩,
  ⟨["--api-host"], none⟩,
  ⟨["--api-port"], none⟩,
  ⟨["--datacenter"], some "dc"⟩,
  ⟨["--token"], none⟩]

/-- The arguments of the register subcommand. -/
def registerArgs : List ArgSpec := [
  ⟨["name"], none⟩,
  ⟨["-a", "--address"], none⟩,
  ⟨["-p", "--port"], none⟩,
  ⟨["-s", "--service-id"], none⟩,
  ⟨["-t", "--tags"], none⟩]

/-- The arguments of the script based check subcommand. -/
def checkArgs : List ArgSpec := [⟨["interval"], none⟩, ⟨["path"], none⟩]

/-- The arguments of the ttl check subcommand. -/
def ttlArgs : List ArgSpec := [⟨["duration"], none⟩]

/-- The check subcommand selected on a register command line, when one
is given. -/
inductive RegCheckSel where
  | check | noCheck | ttl
deriving DecidableEq, Repr

/-- The kv action selected on a kv command line. -/
inductive KvActionSel where
  | backup | restore | ls | mkdir | get | set | rm
deriving DecidableEq, Repr

/-- The string value the action attribute takes for a kv action. -/
def kvActionName : KvActionSel → String
  | .backup => "backup"
  | .restore => "restore"
  | .ls => "ls"
  | .mkdir => "mkdir"
  | .get => "get"
  | .set => "set"
  | .rm => "rm"

/-- The arguments the subcommand of a kv action defines, read off the
kv subcommand table. -/
def kvActionArgs (a : KvActionSel) : List ArgSpec :=
  (List.lookup (kvActionName a) KV_PARSERS).getD []

/-- The shape of a successfully parsed command line: no subcommand, a
register command with an optional check subcommand, or a kv command
with an optional action. -/
inductive ParsedCommand where
  | bare : ParsedCommand
  | register (c : Option RegCheckSel) : ParsedCommand
  | kv (a : Option KvActionSel) : ParsedCommand

/-- The attribute names present in the namespace the parser returns
for a given command shape: the destinations of the top level
arguments, the subcommand destination named command, and the
destinations contributed by the chosen subcommand path. -/
def namespaceAttrs : ParsedCommand → List String
  | .bare => topLevelArgs.map destOf ++ ["command"]
  | .register c =>
      topLevelArgs.map destOf ++ ["command"] ++ registerArgs.map destOf ++ ["ctype"] ++
      (match c with
       | some .check => checkArgs.map destOf
       | some .ttl => ttlArgs.map destOf
       | _ => [])
  | .kv a =>
      topLevelArgs.map destOf ++ ["command"] ++ ["action"] ++
      (match a with
       | some act => (kvActionArgs act).map destOf
       | none => [])

/-- Attribute lookup on a parsed namespace: reading an attribute the
parser never bound raises an attribute error carrying its name. -/
def getAttr (ns : List String) (name : String) : Except String Unit :=
  if name ∈ ns then .ok () else .error name

/-- How a run of main ends: an uncaught attribute error, dispatch to
one named handler, a key error on the dispatch table, or falling
through with no command. -/
inductive MainOutcome where
  | attrError (name : String) : MainOutcome
  | dispatched (handler : String) : MainOutcome
  | keyError : MainOutcome
  | finished : MainOutcome
deriving DecidableEq, Repr

/-- The body of main after argument parsing: the scheme attribute of
the parsed namespace is read first, to select the adapter and build
the client, and only then is the command dispatched to the register
handler or through the kv dispatch table. -/
def mainRun (cmd : ParsedCommand) : MainOutcome :=
  let ns := namespaceAttrs cmd
  match getAttr ns "scheme" with
  | .error name => .attrError name
  | .ok _ =>
    match cmd with
    | .register _ => .dispatched "register"
    | .kv (some act) =>
      match List.lookup (kvActionName act) KV_ACTIONS with
      | some _ => .dispatched (kvActionName act)
      | none => .keyError
    | .kv none => .keyError
    | .bare => .finished

/-- The output line the spec prescribes for ls with the long flag: the
length of the value of the key right-justified in a field of fourteen
characters, then one space, then the key name. -/
def spec_ls_line (n : Nat) (key : String) : String :=
  String.mk (List.replicate (14 - (toString n).length) ' ') ++ toString n ++ " " ++ key

/-- The record set of the round-trip scenario given in the spec. -/
def rtExample : List Record :=
  [⟨"a", Json.arr [], Json.str "1"⟩, ⟨"b/c", Json.arr [], Json.str "2"⟩]

/-! ## Helper lemmas -/

theorem Store.find_append_some (st l : Store) (k : String) (e : Json × Json)
    (h : Store.find st k = some e) : Store.find (st ++ l) k = some e := by
  induction st with
  | nil => simp [Store.find] at h
  | cons hd tl ih =>
    obtain ⟨p, fv⟩ := hd
    by_cases hp : p = k
    · subst hp
      simpa [Store.find] using h
    · simp [Store.find, hp] at h ⊢
      exact ih h

theorem Store.find_append_none (st l : Store) (k : String)
    (h : Store.find st k = none) : Store.find (st ++ l) k = Store.find l k := by
  induction st with
  | nil => simp [Store.find]
  | cons hd tl ih =>
    obtain ⟨p, fv⟩ := hd
    by_cases hp : p = k
    · simp [Store.find, hp] at h
    · simp [Store.find, hp] at h ⊢
      exact ih h

theorem set_record_find_preserved (st : Store) (p : String) (f v : Json)
    (k : String) (e : Json × Json) (h : Store.find st k = some e) :
    Store.find (set_record st p f v false) k = some e := by
  unfold set_record
  cases hp : Store.find st p with
  | some fv => simpa [hp] using h
  | none =>
    simp [hp]
    exact Store.find_append_some st _ k e h

theorem applyRows_find_preserved (rows : List Record) (st : Store)
    (k : String) (e : Json × Json) (h : Store.find st k = some e) :
    Store.find (applyRows false rows st) k = some e := by
  induction rows generalizing st with
  | nil => simpa [applyRows] using h
  | cons r rest ih =>
    have hstep := set_record_find_preserved st r.path r.flags r.value k e h
    simpa [applyRows] using ih (set_record st r.path r.flags r.value false) hstep

theorem set_record_fresh (st : Store) (p : String) (f v : Json) (replace : Bool)
    (hp : Store.find st p = none) :
    set_record st p f v replace = st ++ [(p, f, v)] := by
  simp [set_record, hp]

theorem applyRows_fresh (rows : List Record) :
    ∀ st : Store, (rows.map Record.path).Nodup →
      (∀ r ∈ rows, Store.find st r.path = none) →
      applyRows true rows st = st ++ rows.map (fun r => (r.path, r.flags, r.value)) := by
  induction rows with
  | nil => intro st _ _; simp [applyRows]
  | cons r rest ih =>
    intro st hnd hfresh
    have hfr : Store.find st r.path = none := hfresh r (by simp)
    have hset : set_record st r.path r.flags r.value true = st ++ [(r.path, r.flags, r.value)] :=
      set_record_fresh st r.path r.flags r.value true hfr
    have hnd2 : (r.path :: rest.map Record.path).Nodup := by simpa using hnd
    have hnd' : (rest.map Record.path).Nodup := (List.nodup_cons.mp hnd2).2
    have hhead : r.path ∉ rest.map Record.path := (List.nodup_cons.mp hnd2).1
    have hfresh' : ∀ q ∈ rest, Store.find (st ++ [(r.path, r.flags, r.value)]) q.path = none := by
      intro q hq
      have h1 : Store.find st q.path = none := hfresh q (by simp [hq])
      have h2 : r.path ≠ q.path := by
        intro hc
        apply hhead
        rw [hc]
        exact List.mem_map_of_mem Record.path hq
      rw [Store.find_append_none st _ _ h1]
      simp [Store.find, h2]
    calc applyRows true (r :: rest) st
        = applyRows true rest (set_record st r.path r.flags r.value true) := by
          simp [applyRows]
      _ = (st ++ [(r.path, r.flags, r.value)]) ++ rest.map (fun q => (q.path, q.flags, q.value)) := by
          rw [hset]
          exact ih _ hnd' hfresh'
      _ = st ++ (r :: rest).map (fun q => (q.path, q.flags, q.value)) := by simp

theorem storeRecords_entries (rs : List Record) :
    storeRecords (rs.map (fun r => (r.path, r.flags, r.value))) = rs := by
  induction rs with
  | nil => rfl
  | cons r rest ih =>
    show (⟨r.path, r.flags, r.value⟩ : Record) :: storeRecords (rest.map _) = r :: rest
    rw [ih]

theorem decodeRows_recordJson (rs : List Record) :
    decodeRows (rs.map recordJson) = .ok rs := by
  induction rs with
  | nil => rfl
  | cons r rest ih => simp [decodeRows, recordJson, decodeRecord, ih]

theorem restoreLoop_all_ok (connOk : Nat → Bool) (nr : Bool)
    (hconn : ∀ i, connOk i = true) :
    ∀ (jrows : List Json) (rows : List Record) (i0 : Nat) (st : Store) (ws : List WriteReq),
      decodeRows jrows = .ok rows →
      restoreLoop connOk nr jrows i0 st ws =
        ⟨ws ++ rows.map (mkReq nr), applyRows (!nr) rows st, [], .ok⟩ := by
  intro jrows
  induction jrows with
  | nil =>
    intro rows i0 st ws hdec
    simp [decodeRows] at hdec
    subst hdec
    simp [restoreLoop, applyRows]
  | cons j rest ih =>
    intro rows i0 st ws hdec
    cases hj : decodeRecord j with
    | error e => simp [decodeRows, hj] at hdec
    | ok r =>
      cases hr : decodeRows rest with
      | error e => simp [decodeRows, hj, hr] at hdec
      | ok rs =>
        simp [decodeRows, hj, hr] at hdec
        subst hdec
        simp [restoreLoop, hj, hconn i0, ih rs (i0 + 1) _ _ hr, applyRows]

theorem restoreLoop_fail (connOk : Nat → Bool) (nr : Bool) :
    ∀ (jrows : List Json) (rows : List Record) (k i0 : Nat) (st : Store) (ws : List WriteReq),
      decodeRows jrows = .ok rows →
      (∀ j, j < k → connOk (i0 + j) = true) →
      connOk (i0 + k) = false →
      k < jrows.length →
      restoreLoop connOk nr jrows i0 st ws =
        ⟨ws ++ (rows.take (k + 1)).map (mkReq nr), applyRows (!nr) (rows.take k) st,
          [connErrMsg], .exited 1⟩ := by
  intro jrows
  induction jrows with
  | nil =>
    intro rows k i0 st ws hdec hpre hfail hk
    simp at hk
  | cons j rest ih =>
    intro rows k i0 st ws hdec hpre hfail hk
    cases hj : decodeRecord j with
    | error e => simp [decodeRows, hj] at hdec
    | ok r =>
      cases hr : decodeRows rest with
      | error e => simp [decodeRows, hj, hr] at hdec
      | ok rs =>
        simp [decodeRows, hj, hr] at hdec
        subst hdec
        cases k with
        | zero =>
          have h0 : connOk i0 = false := by simpa using hfail
          simp [restoreLoop, hj, h0, applyRows]
        | succ k =>
          have h0 : connOk i0 = true := by simpa using hpre 0 (Nat.succ_pos k)
          have hpre' : ∀ j, j < k → connOk (i0 + 1 + j) = true := by
            intro j hjk
            have e1 : i0 + (j + 1) = i0 + 1 + j := by omega
            have := hpre (j + 1) (Nat.succ_lt_succ hjk)
            rwa [e1] at this
          have hfail' : connOk (i0 + 1 + k) = false := by
            have e1 : i0 + (k + 1) = i0 + 1 + k := by omega
            rwa [e1] at hfail
          have hk' : k < rest.length := Nat.lt_of_succ_lt_succ (by simpa using hk)
          simp [restoreLoop, hj, h0,
            ih rs k (i0 + 1) (set_record st r.path r.flags r.value (!nr))
              (ws ++ [mkReq nr r]) hr hpre' hfail' hk',
            applyRows]

theorem lsLoop_ok_long (valueOf : String → String) :
    ∀ (ks : List String) (calls : List StoreCall) (out : List String),
      lsLoop (fun k => .ok (valueOf k)) true ks calls out =
        ⟨calls ++ ks.map (fun k => .getItem k),
         out ++ ks.map (fun k => pyRJust 14 (toString (valueOf k).length) ++ " " ++ k),
         [], .ok⟩ := by
  intro ks
  induction ks with
  | nil => intro calls out; simp [lsLoop]
  | cons k rest ih => intro calls out; simp [lsLoop, ih]

theorem lsLoop_ok_short (valueResp : String → Except Unit String) :
    ∀ (ks : List String) (calls : List StoreCall) (out : List String),
      lsLoop valueResp false ks calls out = ⟨calls, out ++ ks, [], .ok⟩ := by
  intro ks
  induction ks with
  | nil => intro calls out; simp [lsLoop]
  | cons k rest ih => intro calls out; simp [lsLoop, ih]

/-! ## Claim theorems -/

/-- Claim C1: the mkdir handler compares the path with its final
character removed against a slash, so a path that already ends in a
slash gets a second slash appended: evaluating the code, the input foo
stores foo followed by one slash, while the input foo followed by a
slash stores foo followed by two slashes instead of being left
unchanged. -/
theorem kv_mkdir_slash_eval_c1 :
    mkdirPath "foo" = "foo/"
    ∧ mkdirPath "foo/" = "foo//"
    ∧ (kv_mkdir "foo/" (.ok ())).calls = [.set "foo//" none] :=
  ⟨rfl, rfl, rfl⟩

/-- Claim C2: for every successfully parsed command line shape, the
run of main reads the scheme attribute first, and since no argument of
the parser binds an attribute of that name, every invocation ends in
an attribute error before any handler is dispatched. -/
theorem main_scheme_attr_error_c2 (cmd : ParsedCommand) :
    mainRun cmd = .attrError "scheme" := by
  cases cmd with
  | bare => decide
  | register c =>
    cases c with
    | none => decide
    | some s => cases s <;> decide
  | kv a =>
    cases a with
    | none => decide
    | some act => cases act <;> decide

/-- Claim C3: when every write reaches the store, the restore handler
issues exactly one set_record write per decoded tuple of the input,
each carrying a replace boolean equal to the negation of the
no-replace flag, and with the no-replace flag set every key present in
the store before the restore keeps its original binding. -/
theorem kv_restore_replace_flag_c3 (jrows : List Json) (rows : List Record)
    (noReplace : Bool) (connOk : Nat → Bool) (st : Store) (k : String) (e : Json × Json)
    (hdec : decodeRows jrows = .ok rows)
    (hconn : ∀ i, connOk i = true)
    (hnr : noReplace = true)
    (hfind : Store.find st k = some e) :
    (kv_restore (.ok (.arr jrows)) noReplace connOk st).writes = rows.map (mkReq noReplace)
    ∧ Store.find (kv_restore (.ok (.arr jrows)) noReplace connOk st).store k = some e := by
  have h := restoreLoop_all_ok connOk noReplace hconn jrows rows 0 st [] hdec
  subst hnr
  rw [show kv_restore (.ok (.arr jrows)) true connOk st
      = restoreLoop connOk true jrows 0 st [] from rfl, h]
  refine ⟨by simp, ?_⟩
  exact applyRows_find_preserved rows st k e hfind

/-- Witness for claim C3: restoring one tuple for the key a over a
store already holding a binding for a, with the no-replace flag set,
issues exactly that one conditional write and leaves the original
value in place. -/
theorem kv_restore_replace_flag_c3_witness :
    (kv_restore (.ok (.arr [recordJson ⟨"a", Json.null, Json.str "2"⟩])) true (fun _ => true)
        [("a", Json.null, Json.str "1")]).writes
      = [mkReq true ⟨"a", Json.null, Json.str "2"⟩]
    ∧ Store.find (kv_restore (.ok (.arr [recordJson ⟨"a", Json.null, Json.str "2"⟩]))
        true (fun _ => true) [("a", Json.null, Json.str "1")]).store "a"
      = some (Json.null, Json.str "1") := by
  have h := kv_restore_replace_flag_c3 [recordJson ⟨"a", Json.null, Json.str "2"⟩]
    [⟨"a", Json.null, Json.str "2"⟩] true (fun _ => true)
    [("a", Json.null, Json.str "1")] "a" (Json.null, Json.str "1")
    rfl (fun _ => rfl) rfl rfl
  simpa using h

/-- Claim C4: a restore input whose JSON parse fails leads to zero
store writes, leaves the store untouched, writes nothing to the error
stream, and the parse failure propagates as an uncaught exception
rather than being converted to the connectivity error. -/
theorem kv_restore_parse_failure_c4 (e : String) (noReplace : Bool)
    (connOk : Nat → Bool) (st : Store) :
    kv_restore (.error e) noReplace connOk st = ⟨[], st, [], .raised e⟩ := rfl

/-- Claim C5: when the write of the tuple at position k is the first
to hit a connectivity failure, the writes of the earlier tuples remain
applied with no rollback, no write is attempted for any later tuple,
and the handler writes the single fixed error line and exits with
status 1 without retrying. -/
theorem kv_restore_midloop_failure_c5 (jrows : List Json) (rows : List Record)
    (k : Nat) (noReplace : Bool) (connOk : Nat → Bool) (st : Store)
    (hdec : decodeRows jrows = .ok rows)
    (hpre : ∀ i, i < k → connOk i = true)
    (hfail : connOk k = false)
    (hk : k < jrows.length) :
    (kv_restore (.ok (.arr jrows)) noReplace connOk st).store
        = applyRows (!noReplace) (rows.take k) st
    ∧ (kv_restore (.ok (.arr jrows)) noReplace connOk st).writes
        = (rows.take (k + 1)).map (mkReq noReplace)
    ∧ (kv_restore (.ok (.arr jrows)) noReplace connOk st).stderr = [connErrMsg]
    ∧ (kv_restore (.ok (.arr jrows)) noReplace connOk st).outcome = .exited 1 := by
  have hpre' : ∀ j, j < k → connOk (0 + j) = true := by
    intro j hj
    simpa using hpre j hj
  have hfail' : connOk (0 + k) = false := by simpa using hfail
  have h := restoreLoop_fail connOk noReplace jrows rows k 0 st [] hdec hpre' hfail' hk
  rw [show kv_restore (.ok (.arr jrows)) noReplace connOk st
      = restoreLoop connOk noReplace jrows 0 st [] from rfl, h]
  exact ⟨rfl, by simp, rfl, rfl⟩

/-- Witness for claim C5: restoring two tuples where the second write
fails applies only the first tuple, attempts exactly the first two
writes, prints the single error line and exits with status 1. -/
theorem kv_restore_midloop_failure_c5_witness :
    (kv_restore (.ok (.arr [recordJson ⟨"a", Json.null, Json.str "1"⟩,
        recordJson ⟨"b", Json.null, Json.str "2"⟩])) false (fun i => i == 0) []).store
      = [("a", Json.null, Json.str "1")]
    ∧ (kv_restore (.ok (.arr [recordJson ⟨"a", Json.null, Json.str "1"⟩,
        recordJson ⟨"b", Json.null, Json.str "2"⟩])) false (fun i => i == 0) []).writes
      = [mkReq false ⟨"a", Json.null, Json.str "1"⟩, mkReq false ⟨"b", Json.null, Json.str "2"⟩]
    ∧ (kv_restore (.ok (.arr [recordJson ⟨"a", Json.null, Json.str "1"⟩,
        recordJson ⟨"b", Json.null, Json.str "2"⟩])) false (fun i => i == 0) []).stderr
      = [connErrMsg]
    ∧ (kv_restore (.ok (.arr [recordJson ⟨"a", Json.null, Json.str "1"⟩,
        recordJson ⟨"b", Json.null, Json.str "2"⟩])) false (fun i => i == 0) []).outcome
      = .exited 1 := by
  have h := kv_restore_midloop_failure_c5
    [recordJson ⟨"a", Json.null, Json.str "1"⟩, recordJson ⟨"b", Json.null, Json.str "2"⟩]
    [⟨"a", Json.null, Json.str "1"⟩, ⟨"b", Json.null, Json.str "2"⟩]
    1 false (fun i => i == 0) [] rfl
    (fun i hi => by simp [Nat.lt_one_iff.mp hi])
    rfl (by decide)
  obtain ⟨h1, h2, h3, h4⟩ := h
  exact ⟨h1.trans rfl, h2.trans rfl, h3, h4⟩

/-- Claim C6: on a connectivity failure each kv or register handler
makes exactly the one call it was attempting, performs no retry,
writes exactly the single fixed error line to the error stream, and
the process exits with status 1; in particular a connectivity failure
during get prints exactly one error line and exits with status 1. -/
theorem conn_failure_single_error_c6 :
    (∀ key, kv_get key (.error ()) = ⟨[.get key], [], [connErrMsg], .exited 1⟩)
    ∧ kv_backup (.error ()) = ⟨[.records], [], [connErrMsg], .exited 1⟩
    ∧ (∀ key, kv_delete key (.error ()) = ⟨[.delItem key], [], [connErrMsg], .exited 1⟩)
    ∧ (∀ valueResp long, kv_ls (.error ()) valueResp long
        = ⟨[.keys], [], [connErrMsg], .exited 1⟩)
    ∧ (∀ path, kv_mkdir path (.error ())
        = ⟨[.set (mkdirPath path) none], [], [connErrMsg], .exited 1⟩)
    ∧ (∀ key recurse, kv_rm key recurse (.error ())
        = ⟨[.delete key recurse], [], [connErrMsg], .exited 1⟩)
    ∧ (∀ key value, kv_set key value (.error ())
        = ⟨[.setItem key value], [], [connErrMsg], .exited 1⟩)
    ∧ (∀ a, (register a (.error ())).stderr = [connErrMsg]
        ∧ (register a (.error ())).outcome = .exited 1
        ∧ (register a (.error ())).calls.length = 1)
    ∧ (∀ (r : Record) (rest : List Json) (noReplace : Bool) (st : Store),
        (kv_restore (.ok (.arr (recordJson r :: rest))) noReplace (fun _ => false) st).stderr
          = [connErrMsg]
        ∧ (kv_restore (.ok (.arr (recordJson r :: rest))) noReplace (fun _ => false) st).outcome
          = .exited 1
        ∧ (kv_restore (.ok (.arr (recordJson r :: rest))) noReplace (fun _ => false) st).writes
          = [mkReq noReplace r]) :=
  ⟨fun _ => rfl, rfl, fun _ => rfl, fun _ _ => rfl, fun _ => rfl, fun _ _ => rfl,
    fun _ _ => rfl, fun _ => ⟨rfl, rfl, rfl⟩, fun _ _ _ _ => ⟨rfl, rfl, rfl⟩⟩

/-- Claim C7: with every store interaction succeeding, ls prints
exactly one line per enumerated key, and with the long flag each line
is the length of the value of the key right-justified in a
fourteen-character field, one space, and the key name, as the spec
phrases it. -/
theorem kv_ls_format_c7 (keys : List String) (valueOf : String → String) (long : Bool) :
    (kv_ls (.ok keys) (fun k => .ok (valueOf k)) long).stdout.length = keys.length
    ∧ (kv_ls (.ok keys) (fun k => .ok (valueOf k)) true).stdout
        = keys.map (fun k => spec_ls_line (valueOf k).length k) := by
  constructor
  · cases long with
    | true => simp [kv_ls, lsLoop_ok_long]
    | false => simp [kv_ls, lsLoop_ok_short]
  · simp [kv_ls, lsLoop_ok_long, spec_ls_line, pyRJust]

/-- Claim C8: restoring the backup serialisation of a record set with
distinct paths into an empty store, with the no-replace flag unset and
every write succeeding, reproduces exactly the same records. -/
theorem backup_restore_roundtrip_c8 (rs : List Record)
    (hnd : (rs.map Record.path).Nodup) :
    storeRecords ((kv_restore (.ok (backupJson rs)) false (fun _ => true) []).store) = rs
    ∧ (kv_restore (.ok (backupJson rs)) false (fun _ => true) []).outcome = .ok := by
  have h := restoreLoop_all_ok (fun _ => true) false (fun _ => rfl)
    (rs.map recordJson) rs 0 [] [] (decodeRows_recordJson rs)
  rw [show kv_restore (.ok (backupJson rs)) false (fun _ => true) []
      = restoreLoop (fun _ => true) false (rs.map recordJson) 0 [] [] from rfl, h]
  refine ⟨?_, rfl⟩
  have hfresh : ∀ r ∈ rs, Store.find [] r.path = none := fun r _ => rfl
  rw [show applyRows (!false) rs ([] : Store) = applyRows true rs [] from rfl,
    applyRows_fresh rs [] hnd hfresh]
  simpa using storeRecords_entries rs

/-- Witness for claim C8: the spec scenario with the two records at
paths a and b/c round-trips through backup and restore. -/
theorem backup_restore_roundtrip_c8_witness :
    storeRecords ((kv_restore (.ok (backupJson rtExample)) false (fun _ => true) []).store)
      = rtExample
    ∧ (kv_restore (.ok (backupJson rtExample)) false (fun _ => true) []).outcome = .ok :=
  backup_restore_roundtrip_c8 rtExample (by decide)

/-- Claim C9: the subcommand chosen at parse time selects exactly one
of the three check variants; the script path and the interval with its
trailing time-unit letter are sent only for a script check, the
duration with its trailing time-unit letter only for a ttl check, and
the fields of the unselected variants are absent. -/
theorem register_check_variants_c9 (a : RegisterArgs) (resp : Except Unit Unit) :
    (register a resp).checkFields =
      some (match a.ctype with
        | .check i p => (some p, some (toString i ++ "s"), none)
        | .noCheck => (none, none, none)
        | .ttl d => (none, none, some (toString d ++ "s"))) := by
  obtain ⟨name, addr, port, sid, tags, ctype⟩ := a
  cases ctype <;> cases resp <;> rfl

/-- Claim C10: every kv action name the parser can produce has a
handler in the dispatch table, so the lookup cannot miss for those
names, and the table additionally maps the name del to the delete
handler although no parser subcommand produces that name. -/
theorem kv_actions_total_c10 :
    ((KV_PARSERS.map Prod.fst).all (fun name => (List.lookup name KV_ACTIONS).isSome) = true)
    ∧ List.lookup "del" KV_ACTIONS = some HandlerName.kv_delete
    ∧ "del" ∉ KV_PARSERS.map Prod.fst := by decide

end ConsulateCli


